import Mathlib

/-!
Shallow embedding of `src/robot3D_basic_solution.py` (forward kinematics of a
four-joint robot arm) and proofs of the specification's claims about it.

Python floating-point numbers are modelled as real numbers; a Python function
that can raise an exception is modelled as returning an `Option`, with `none`
standing for the raised error.
-/

open Matrix

/-- The x-axis branch matrix of `RotationMatrix` (source lines 20-23):
rows `[1,0,0; 0,c,-s; 0,s,c]` with `c = cos(theta·π/180)`, `s = sin(theta·π/180)`. -/
noncomputable def rotX (theta : ℝ) : Matrix (Fin 3) (Fin 3) ℝ :=
  let c := Real.cos (theta * Real.pi / 180)
  let s := Real.sin (theta * Real.pi / 180)
  !![1, 0, 0;
     0, c, -s;
     0, s, c]

/-- The y-axis branch matrix of `RotationMatrix` (source lines 24-27):
rows `[c,0,s; 0,1,0; -s,0,c]`. -/
noncomputable def rotY (theta : ℝ) : Matrix (Fin 3) (Fin 3) ℝ :=
  let c := Real.cos (theta * Real.pi / 180)
  let s := Real.sin (theta * Real.pi / 180)
  !![c, 0, s;
     0, 1, 0;
     -s, 0, c]

/-- The z-axis branch matrix of `RotationMatrix` (source lines 28-31):
rows `[c,-s,0; s,c,0; 0,0,1]`. -/
noncomputable def rotZ (theta : ℝ) : Matrix (Fin 3) (Fin 3) ℝ :=
  let c := Real.cos (theta * Real.pi / 180)
  let s := Real.sin (theta * Real.pi / 180)
  !![c, -s, 0;
     s, c, 0;
     0, 0, 1]

/-- `RotationMatrix(theta, axis_name)` from the source (lines 7-32).
The Python control flow is: `if axis_name == 'x'` assigns the local variable
`rotation_matrix`; a second, independent `if axis_name == 'y' ... elif
axis_name == 'z'` chain may reassign it; `return rotation_matrix` then raises
`UnboundLocalError` when no branch assigned.  The `let rotation_matrix` below
models the state of that local after the first `if` (with `none` for
"unassigned"), and the outer `if`-chain models the second statement; `none`
models the raised error. -/
noncomputable def RotationMatrix (theta : ℝ) (axis_name : String) :
    Option (Matrix (Fin 3) (Fin 3) ℝ) :=
  let rotation_matrix : Option (Matrix (Fin 3) (Fin 3) ℝ) :=
    if axis_name = "x" then some (rotX theta) else none
  if axis_name = "y" then some (rotY theta)
  else if axis_name = "z" then some (rotZ theta)
  else rotation_matrix

lemma RotationMatrix_x (theta : ℝ) : RotationMatrix theta "x" = some (rotX theta) := rfl

lemma RotationMatrix_y (theta : ℝ) : RotationMatrix theta "y" = some (rotY theta) := rfl

lemma RotationMatrix_z (theta : ℝ) : RotationMatrix theta "z" = some (rotZ theta) := rfl

lemma rotX_mul_transpose (theta : ℝ) : rotX theta * (rotX theta)ᵀ = 1 := by
  have h := Real.sin_sq_add_cos_sq (theta * Real.pi / 180)
  ext i j
  fin_cases i <;> fin_cases j <;>
    simp [rotX, Matrix.mul_apply, Fin.sum_univ_succ, Matrix.one_apply,
      Matrix.transpose_apply, Matrix.vecHead, Matrix.vecTail, Function.comp] <;>
    nlinarith [h]

lemma rotY_mul_transpose (theta : ℝ) : rotY theta * (rotY theta)ᵀ = 1 := by
  have h := Real.sin_sq_add_cos_sq (theta * Real.pi / 180)
  ext i j
  fin_cases i <;> fin_cases j <;>
    simp [rotY, Matrix.mul_apply, Fin.sum_univ_succ, Matrix.one_apply,
      Matrix.transpose_apply, Matrix.vecHead, Matrix.vecTail, Function.comp] <;>
    nlinarith [h]

lemma rotZ_mul_transpose (theta : ℝ) : rotZ theta * (rotZ theta)ᵀ = 1 := by
  have h := Real.sin_sq_add_cos_sq (theta * Real.pi / 180)
  ext i j
  fin_cases i <;> fin_cases j <;>
    simp [rotZ, Matrix.mul_apply, Fin.sum_univ_succ, Matrix.one_apply,
      Matrix.transpose_apply, Matrix.vecHead, Matrix.vecTail, Function.comp] <;>
    nlinarith [h]

lemma rotX_det (theta : ℝ) : (rotX theta).det = 1 := by
  have h := Real.sin_sq_add_cos_sq (theta * Real.pi / 180)
  simp [rotX, Matrix.det_fin_three]
  nlinarith [h]

lemma rotY_det (theta : ℝ) : (rotY theta).det = 1 := by
  have h := Real.sin_sq_add_cos_sq (theta * Real.pi / 180)
  simp [rotY, Matrix.det_fin_three]
  nlinarith [h]

lemma rotZ_det (theta : ℝ) : (rotZ theta).det = 1 := by
  have h := Real.sin_sq_add_cos_sq (theta * Real.pi / 180)
  simp [rotZ, Matrix.det_fin_three]
  nlinarith [h]

/-- C1: for every real angle theta and every axis tag, any matrix actually
returned by `RotationMatrix` (the axis tag being one of x, y, z, the only tags
for which a matrix is returned) is orthonormal and has determinant 1. -/
theorem rotationMatrix_orthonormal (theta : ℝ) (axis_name : String)
    (R : Matrix (Fin 3) (Fin 3) ℝ) (h : RotationMatrix theta axis_name = some R) :
    R * Rᵀ = 1 ∧ R.det = 1 := by
  by_cases hy : axis_name = "y"
  · subst hy; rw [RotationMatrix_y] at h; cases h
    exact ⟨rotY_mul_transpose theta, rotY_det theta⟩
  by_cases hz : axis_name = "z"
  · subst hz; rw [RotationMatrix_z] at h; cases h
    exact ⟨rotZ_mul_transpose theta, rotZ_det theta⟩
  by_cases hx : axis_name = "x"
  · subst hx; rw [RotationMatrix_x] at h; cases h
    exact ⟨rotX_mul_transpose theta, rotX_det theta⟩
  · exfalso
    simp [RotationMatrix, hx, hy, hz] at h

/-- Witness for C1 at theta = 0, axis z. -/
theorem rotationMatrix_orthonormal_witness :
    RotationMatrix 0 "z" = some (rotZ 0) ∧ rotZ 0 * (rotZ 0)ᵀ = 1 ∧ (rotZ 0).det = 1 :=
  ⟨rfl, rotationMatrix_orthonormal 0 "z" (rotZ 0) rfl⟩

lemma rotX_mul_rotX_neg (theta : ℝ) : rotX theta * rotX (-theta) = 1 := by
  have h := Real.sin_sq_add_cos_sq (theta * Real.pi / 180)
  ext i j
  fin_cases i <;> fin_cases j <;>
    simp [rotX, Matrix.mul_apply, Fin.sum_univ_succ, Matrix.one_apply,
      Matrix.vecHead, Matrix.vecTail, Function.comp, neg_mul, neg_div,
      Real.cos_neg, Real.sin_neg] <;>
    nlinarith [h]

lemma rotY_mul_rotY_neg (theta : ℝ) : rotY theta * rotY (-theta) = 1 := by
  have h := Real.sin_sq_add_cos_sq (theta * Real.pi / 180)
  ext i j
  fin_cases i <;> fin_cases j <;>
    simp [rotY, Matrix.mul_apply, Fin.sum_univ_succ, Matrix.one_apply,
      Matrix.vecHead, Matrix.vecTail, Function.comp, neg_mul, neg_div,
      Real.cos_neg, Real.sin_neg] <;>
    nlinarith [h]

lemma rotZ_mul_rotZ_neg (theta : ℝ) : rotZ theta * rotZ (-theta) = 1 := by
  have h := Real.sin_sq_add_cos_sq (theta * Real.pi / 180)
  ext i j
  fin_cases i <;> fin_cases j <;>
    simp [rotZ, Matrix.mul_apply, Fin.sum_univ_succ, Matrix.one_apply,
      Matrix.vecHead, Matrix.vecTail, Function.comp, neg_mul, neg_div,
      Real.cos_neg, Real.sin_neg] <;>
    nlinarith [h]

/-- C2: for every real angle theta and every axis tag for which
`RotationMatrix` returns a matrix (the tags x, y, z), the matrix for theta
multiplied by the matrix for -theta about the same axis is the identity. -/
theorem rotationMatrix_inverse_law (theta : ℝ) (axis_name : String)
    (R S : Matrix (Fin 3) (Fin 3) ℝ)
    (h : RotationMatrix theta axis_name = some R)
    (h2 : RotationMatrix (-theta) axis_name = some S) :
    R * S = 1 := by
  by_cases hy : axis_name = "y"
  · subst hy; rw [RotationMatrix_y] at h h2; cases h; cases h2
    exact rotY_mul_rotY_neg theta
  by_cases hz : axis_name = "z"
  · subst hz; rw [RotationMatrix_z] at h h2; cases h; cases h2
    exact rotZ_mul_rotZ_neg theta
  by_cases hx : axis_name = "x"
  · subst hx; rw [RotationMatrix_x] at h h2; cases h; cases h2
    exact rotX_mul_rotX_neg theta
  · exfalso
    simp [RotationMatrix, hx, hy, hz] at h

/-- Witness for C2 at theta = 0, axis z. -/
theorem rotationMatrix_inverse_law_witness :
    RotationMatrix 0 "z" = some (rotZ 0) ∧ RotationMatrix (-0) "z" = some (rotZ (-0)) ∧
      rotZ 0 * rotZ (-0) = 1 :=
  ⟨rfl, rfl, rotationMatrix_inverse_law 0 "z" (rotZ 0) (rotZ (-0)) rfl rfl⟩

/-- `getLocalFrameMatrix(R_ij, t_ij)` from the source (lines 92-105):
`np.block([[R_ij, t_ij], [np.zeros((1,3)), 1]])`, the 4×4 rigid-body
transform.  The 3×1 column `t_ij` is modelled as a vector `Fin 3 → ℝ`. -/
noncomputable def getLocalFrameMatrix (R_ij : Matrix (Fin 3) (Fin 3) ℝ)
    (t_ij : Fin 3 → ℝ) : Matrix (Fin 4) (Fin 4) ℝ :=
  !![R_ij 0 0, R_ij 0 1, R_ij 0 2, t_ij 0;
     R_ij 1 0, R_ij 1 1, R_ij 1 2, t_ij 1;
     R_ij 2 0, R_ij 2 1, R_ij 2 2, t_ij 2;
     0, 0, 0, 1]

/-- C3: `getLocalFrameMatrix R t` is the block matrix `[[R, t], [0 0 0, 1]]`
(top-left 3×3 block is `R`, last column's first three entries are `t`, bottom
row is exactly `[0,0,0,1]`), and applying it to the homogeneous origin column
`[0,0,0,1]` yields `[t, 1]`. -/
theorem getLocalFrameMatrix_block (R : Matrix (Fin 3) (Fin 3) ℝ) (t : Fin 3 → ℝ) :
    (∀ i j : Fin 3, getLocalFrameMatrix R t i.castSucc j.castSucc = R i j) ∧
    (∀ i : Fin 3, getLocalFrameMatrix R t i.castSucc 3 = t i) ∧
    (∀ j : Fin 3, getLocalFrameMatrix R t 3 j.castSucc = 0) ∧
    getLocalFrameMatrix R t 3 3 = 1 ∧
    getLocalFrameMatrix R t *ᵥ ![0, 0, 0, 1] = ![t 0, t 1, t 2, 1] := by
  refine ⟨?_, ?_, ?_, rfl, ?_⟩
  · intro i j
    fin_cases i <;> fin_cases j <;> rfl
  · intro i
    fin_cases i <;> rfl
  · intro j
    fin_cases j <;> rfl
  · funext i
    fin_cases i <;>
      simp [getLocalFrameMatrix, Matrix.mulVec, Matrix.dotProduct, Fin.sum_univ_succ,
        Matrix.vecHead, Matrix.vecTail, Function.comp]

/-- The tuple returned by `forward_kinematics` (source line 219): the four
cumulative local-to-global transforms and the end-effector position. -/
structure FKResult where
  T01 : Matrix (Fin 4) (Fin 4) ℝ
  T02 : Matrix (Fin 4) (Fin 4) ℝ
  T03 : Matrix (Fin 4) (Fin 4) ℝ
  T04 : Matrix (Fin 4) (Fin 4) ℝ
  e : Fin 3 → ℝ

/-- `forward_kinematics(Phi, L1, L2, L3, L4)` from the source (lines 107-219),
with the rendering-only statements (mesh construction, `apply_transform`)
dropped as the spec's excluded collaborators.  `Phi` is modelled as a list of
angles; `Phi[i]` is `Phi.get? i`, with `none` modelling the Python
`IndexError` when the list is too short, and the `Option`-valued
`RotationMatrix` is sequenced with `bind`.  Translations come from the source:
`p1 = [3, 2, 0.0]`, `p2 = [L1 + 0.8, 0, 0]`, `p3 = [L2 + 0.8, 0, 0]`,
`p4 = [L3 + 0.4, 0, 0]`; `L4` is accepted but never read.  The end-effector
`e` is the first three components of `T_04 @ [0,0,0,1]ᵗ` (line 217). -/
noncomputable def forward_kinematics (Phi : List ℝ) (L1 L2 L3 L4 : ℝ) :
    Option FKResult :=
  (Phi.get? 0).bind fun phi0 =>
  (RotationMatrix phi0 "z").bind fun R_01 =>
  let t_01 : Fin 3 → ℝ := ![3, 2, 0]
  let T_01 := getLocalFrameMatrix R_01 t_01
  (Phi.get? 1).bind fun phi1 =>
  (RotationMatrix phi1 "z").bind fun R_12 =>
  let t_12 : Fin 3 → ℝ := ![L1 + 0.8, 0, 0]
  let T_12 := getLocalFrameMatrix R_12 t_12
  let T_02 := T_01 * T_12
  (Phi.get? 2).bind fun phi2 =>
  (RotationMatrix phi2 "z").bind fun R_23 =>
  let t_23 : Fin 3 → ℝ := ![L2 + 0.8, 0, 0]
  let T_23 := getLocalFrameMatrix R_23 t_23
  let T_03 := T_01 * T_12 * T_23
  (Phi.get? 3).bind fun phi3 =>
  (RotationMatrix phi3 "z").bind fun R_34 =>
  let t_34 : Fin 3 → ℝ := ![L3 + 0.4, 0, 0]
  let T_34 := getLocalFrameMatrix R_34 t_34
  let T_04 := T_01 * T_12 * T_23 * T_34
  let e : Fin 3 → ℝ := fun i => (T_04 *ᵥ ![0, 0, 0, 1]) i.castSucc
  some ⟨T_01, T_02, T_03, T_04, e⟩

/-- The local transform of joint 1 as built inside `forward_kinematics`:
rotation about z by `Phi[0]`, translation `p1 = (3, 2, 0)`. -/
noncomputable def T_loc1 (phi : ℝ) : Matrix (Fin 4) (Fin 4) ℝ :=
  getLocalFrameMatrix (rotZ phi) ![3, 2, 0]

/-- The local transform of joint 2: rotation about z by `Phi[1]`, translation
`p2 = (L1 + 0.8, 0, 0)`. -/
noncomputable def T_loc2 (phi L1 : ℝ) : Matrix (Fin 4) (Fin 4) ℝ :=
  getLocalFrameMatrix (rotZ phi) ![L1 + 0.8, 0, 0]

/-- The local transform of joint 3: rotation about z by `Phi[2]`, translation
`p3 = (L2 + 0.8, 0, 0)`. -/
noncomputable def T_loc3 (phi L2 : ℝ) : Matrix (Fin 4) (Fin 4) ℝ :=
  getLocalFrameMatrix (rotZ phi) ![L2 + 0.8, 0, 0]

/-- The local transform of joint 4: rotation about z by `Phi[3]`, translation
`p4 = (L3 + 0.4, 0, 0)`. -/
noncomputable def T_loc4 (phi L3 : ℝ) : Matrix (Fin 4) (Fin 4) ℝ :=
  getLocalFrameMatrix (rotZ phi) ![L3 + 0.4, 0, 0]

lemma forward_kinematics_cons (a b c d : ℝ) (rest : List ℝ) (L1 L2 L3 L4 : ℝ) :
    forward_kinematics (a :: b :: c :: d :: rest) L1 L2 L3 L4 = some
      ⟨T_loc1 a,
       T_loc1 a * T_loc2 b L1,
       T_loc1 a * T_loc2 b L1 * T_loc3 c L2,
       T_loc1 a * T_loc2 b L1 * T_loc3 c L2 * T_loc4 d L3,
       fun i => ((T_loc1 a * T_loc2 b L1 * T_loc3 c L2 * T_loc4 d L3) *ᵥ
         ![0, 0, 0, 1]) i.castSucc⟩ := rfl

/-- The result of `forward_kinematics` on the all-zero angle vector with unit
link lengths, used as the concrete instance in the witness theorems. -/
noncomputable def fkZeroRes : FKResult :=
  ⟨T_loc1 0,
   T_loc1 0 * T_loc2 0 1,
   T_loc1 0 * T_loc2 0 1 * T_loc3 0 1,
   T_loc1 0 * T_loc2 0 1 * T_loc3 0 1 * T_loc4 0 1,
   fun i => ((T_loc1 0 * T_loc2 0 1 * T_loc3 0 1 * T_loc4 0 1) *ᵥ
     ![0, 0, 0, 1]) i.castSucc⟩

/-- C4: the cumulative transforms returned by `forward_kinematics` satisfy the
recurrence Pose[i] = Pose[i-1] · T_local[i] with Pose[0] the identity, and the
final transform equals the left-to-right product of the four local transforms
in chain order from base to tip. -/
theorem forward_kinematics_recurrence (a b c d : ℝ) (rest : List ℝ)
    (L1 L2 L3 L4 : ℝ) (r : FKResult)
    (h : forward_kinematics (a :: b :: c :: d :: rest) L1 L2 L3 L4 = some r) :
    r.T01 = 1 * T_loc1 a ∧
    r.T02 = r.T01 * T_loc2 b L1 ∧
    r.T03 = r.T02 * T_loc3 c L2 ∧
    r.T04 = r.T03 * T_loc4 d L3 ∧
    r.T04 = T_loc1 a * T_loc2 b L1 * T_loc3 c L2 * T_loc4 d L3 := by
  rw [forward_kinematics_cons] at h
  cases h
  exact ⟨(one_mul _).symm, rfl, rfl, rfl, rfl⟩

/-- Witness for C4 on the all-zero angle vector with unit link lengths. -/
theorem forward_kinematics_recurrence_witness :
    forward_kinematics [0, 0, 0, 0] 1 1 1 1 = some fkZeroRes ∧
      (fkZeroRes.T01 = 1 * T_loc1 0 ∧
       fkZeroRes.T02 = fkZeroRes.T01 * T_loc2 0 1 ∧
       fkZeroRes.T03 = fkZeroRes.T02 * T_loc3 0 1 ∧
       fkZeroRes.T04 = fkZeroRes.T03 * T_loc4 0 1 ∧
       fkZeroRes.T04 = T_loc1 0 * T_loc2 0 1 * T_loc3 0 1 * T_loc4 0 1) :=
  ⟨rfl, forward_kinematics_recurrence 0 0 0 0 [] 1 1 1 1 fkZeroRes rfl⟩

lemma getLocalFrameMatrix_bottom_row (R : Matrix (Fin 3) (Fin 3) ℝ)
    (t : Fin 3 → ℝ) : getLocalFrameMatrix R t 3 = ![0, 0, 0, 1] := by
  funext j
  fin_cases j <;> rfl

lemma bottom_row_mul {A B : Matrix (Fin 4) (Fin 4) ℝ}
    (hA : A 3 = ![0, 0, 0, 1]) (hB : B 3 = ![0, 0, 0, 1]) :
    (A * B) 3 = ![0, 0, 0, 1] := by
  funext j
  rw [Matrix.mul_apply]
  simp [Fin.sum_univ_succ, hA, Matrix.vecHead, Matrix.vecTail, Function.comp]
  rw [show (Fin.succ 2 : Fin 4) = 3 from rfl, hB]

lemma mulVec_last {A : Matrix (Fin 4) (Fin 4) ℝ}
    (hA : A 3 = ![0, 0, 0, 1]) (v : Fin 4 → ℝ) : (A *ᵥ v) 3 = v 3 := by
  simp [Matrix.mulVec, Matrix.dotProduct, Fin.sum_univ_succ, hA,
    Matrix.vecHead, Matrix.vecTail, Function.comp]
  rfl

/-- C5: the end-effector position returned by `forward_kinematics` is the
first three components of `T_04` applied to the homogeneous origin column
`[0,0,0,1]ᵗ`, and the fourth (homogeneous) component of that product is 1. -/
theorem forward_kinematics_end_effector (a b c d : ℝ) (rest : List ℝ)
    (L1 L2 L3 L4 : ℝ) (r : FKResult)
    (h : forward_kinematics (a :: b :: c :: d :: rest) L1 L2 L3 L4 = some r) :
    (∀ i : Fin 3, r.e i = (r.T04 *ᵥ ![0, 0, 0, 1]) i.castSucc) ∧
    (r.T04 *ᵥ ![0, 0, 0, 1]) 3 = 1 := by
  rw [forward_kinematics_cons] at h
  cases h
  refine ⟨fun i => rfl, ?_⟩
  have h1 : T_loc1 a 3 = ![0, 0, 0, 1] := getLocalFrameMatrix_bottom_row _ _
  have h2 : T_loc2 b L1 3 = ![0, 0, 0, 1] := getLocalFrameMatrix_bottom_row _ _
  have h3 : T_loc3 c L2 3 = ![0, 0, 0, 1] := getLocalFrameMatrix_bottom_row _ _
  have h4 : T_loc4 d L3 3 = ![0, 0, 0, 1] := getLocalFrameMatrix_bottom_row _ _
  rw [mulVec_last (bottom_row_mul (bottom_row_mul (bottom_row_mul h1 h2) h3) h4)]
  simp

/-- Witness for C5 on the all-zero angle vector with unit link lengths. -/
theorem forward_kinematics_end_effector_witness :
    forward_kinematics [0, 0, 0, 0] 1 1 1 1 = some fkZeroRes ∧
      fkZeroRes.e 0 = (fkZeroRes.T04 *ᵥ ![0, 0, 0, 1]) (Fin.castSucc 0) ∧
      (fkZeroRes.T04 *ᵥ ![0, 0, 0, 1]) 3 = 1 :=
  ⟨rfl,
   (forward_kinematics_end_effector 0 0 0 0 [] 1 1 1 1 fkZeroRes rfl).1 0,
   (forward_kinematics_end_effector 0 0 0 0 [] 1 1 1 1 fkZeroRes rfl).2⟩

/-- C6: for every axis tag outside x, y, z, `RotationMatrix` signals an error
(it never falls through and returns a matrix): in the embedding the raised
Python `UnboundLocalError` is the `none` result. -/
theorem rotationMatrix_invalid_axis (theta : ℝ) (axis_name : String)
    (hx : axis_name ≠ "x") (hy : axis_name ≠ "y") (hz : axis_name ≠ "z") :
    RotationMatrix theta axis_name = none := by
  simp [RotationMatrix, hx, hy, hz]

/-- Witness for C6 at the invalid axis tag "w". -/
theorem rotationMatrix_invalid_axis_witness :
    ("w" : String) ≠ "x" ∧ ("w" : String) ≠ "y" ∧ ("w" : String) ≠ "z" ∧
      RotationMatrix 0 "w" = none :=
  ⟨by decide, by decide, by decide,
   rotationMatrix_invalid_axis 0 "w" (by decide) (by decide) (by decide)⟩

/-- C7 counterexample: on the empty joint-angle vector `forward_kinematics`
errors (indexing `Phi[0]` fails), rather than returning the empty pose
sequence and the origin as a defined, non-error result. -/
theorem forward_kinematics_empty_chain_errors :
    forward_kinematics [] 5 8 3 0 = none := rfl

/-- C7 amended: the solver is hard-coded to a four-joint chain, not arbitrary
N: it succeeds exactly when the joint-angle vector has at least four entries
(the four it indexes; any further entries are ignored), and on the empty
vector it errors instead of returning an empty pose sequence. -/
theorem forward_kinematics_arity (Phi : List ℝ) (L1 L2 L3 L4 : ℝ) :
    (forward_kinematics Phi L1 L2 L3 L4).isSome ↔ 4 ≤ Phi.length := by
  rcases Phi with _ | ⟨a, _ | ⟨b, _ | ⟨c, _ | ⟨d, rest⟩⟩⟩⟩
  · simp [show forward_kinematics [] L1 L2 L3 L4 = none from rfl]
  · simp [show forward_kinematics [a] L1 L2 L3 L4 = none from rfl]
  · simp [show forward_kinematics [a, b] L1 L2 L3 L4 = none from rfl]
  · simp [show forward_kinematics [a, b, c] L1 L2 L3 L4 = none from rfl]
  · rw [forward_kinematics_cons]
    simp

/-- The end-effector computation unrolled in `main` (source lines 221-337),
rendering statements dropped: fixed link lengths L1 = 5, L2 = 8, L3 = 3 and
joint angles 30, -50, -30, 0 degrees, all rotations about z, translations
`p1 = (3, 2, 0)`, `p2 = (L1+0.8, 0, 0)`, `p3 = (L2+0.8, 0, 0)`,
`p4 = (L3+0.4, 0, 0)`; the value is the printed position
`x = (T_04 @ [0,0,0,1])[:3]` of line 335 (the commented-out offset correction
of line 336 is not applied).  `none` models an exception escaping `main`. -/
noncomputable def main_x : Option (Fin 3 → ℝ) :=
  let L1 : ℝ := 5
  let L2 : ℝ := 8
  let L3 : ℝ := 3
  let phi1 : ℝ := 30
  let phi2 : ℝ := -50
  let phi3 : ℝ := -30
  let phi4 : ℝ := 0
  (RotationMatrix phi1 "z").bind fun R_01 =>
  let t_01 : Fin 3 → ℝ := ![3, 2, 0]
  let T_01 := getLocalFrameMatrix R_01 t_01
  (RotationMatrix phi2 "z").bind fun R_12 =>
  let t_12 : Fin 3 → ℝ := ![L1 + 0.8, 0, 0]
  let T_12 := getLocalFrameMatrix R_12 t_12
  let T_02 := T_01 * T_12
  (RotationMatrix phi3 "z").bind fun R_23 =>
  let t_23 : Fin 3 → ℝ := ![L2 + 0.8, 0, 0]
  let T_23 := getLocalFrameMatrix R_23 t_23
  let T_03 := T_01 * T_12 * T_23
  (RotationMatrix phi4 "z").bind fun R_34 =>
  let t_34 : Fin 3 → ℝ := ![L3 + 0.4, 0, 0]
  let T_34 := getLocalFrameMatrix R_34 t_34
  let T_04 := T_01 * T_12 * T_23 * T_34
  some (fun i => (T_04 *ᵥ ![0, 0, 0, 1]) i.castSucc)

/-- C8: on the concrete configuration L1 = 5, L2 = 8, L3 = 3, joint angles
[30, -50, -30, 0] degrees (base offset (3,2,0) and per-link paddings 0.8/0.4
being baked into both computations), `forward_kinematics` returns exactly the
end-effector position that the reference computation unrolled in `main`
produces, whatever the unused length `L4` is. -/
theorem forward_kinematics_matches_main (L4 : ℝ) :
    Option.map FKResult.e (forward_kinematics [30, -50, -30, 0] 5 8 3 L4) =
      main_x := rfl

/-- C9: `forward_kinematics` never reads `L4`: two calls agreeing on `Phi`,
`L1`, `L2`, `L3` return identical transforms and end-effector position for
any two values of `L4`. -/
theorem forward_kinematics_ignores_L4 (Phi : List ℝ) (L1 L2 L3 La Lb : ℝ) :
    forward_kinematics Phi L1 L2 L3 La = forward_kinematics Phi L1 L2 L3 Lb := rfl

lemma rowz_getLocalFrameMatrix (R : Matrix (Fin 3) (Fin 3) ℝ) (t : Fin 3 → ℝ)
    (hR : R 2 = ![0, 0, 1]) (ht : t 2 = 0) :
    getLocalFrameMatrix R t 2 = ![0, 0, 1, 0] := by
  funext j
  fin_cases j <;> simp [getLocalFrameMatrix, hR, ht]

lemma rotZ_rowz (theta : ℝ) : rotZ theta 2 = ![0, 0, 1] := by
  funext j
  fin_cases j <;> rfl

lemma rowz_mul {A B : Matrix (Fin 4) (Fin 4) ℝ}
    (hA : A 2 = ![0, 0, 1, 0]) (hB : B 2 = ![0, 0, 1, 0]) :
    (A * B) 2 = ![0, 0, 1, 0] := by
  funext j
  rw [Matrix.mul_apply]
  simp [Fin.sum_univ_succ, hA, Matrix.vecHead, Matrix.vecTail, Function.comp]
  rw [hB]

lemma mulVec_z {A : Matrix (Fin 4) (Fin 4) ℝ}
    (hA : A 2 = ![0, 0, 1, 0]) (v : Fin 4 → ℝ) : (A *ᵥ v) 2 = v 2 := by
  simp [Matrix.mulVec, Matrix.dotProduct, Fin.sum_univ_succ, hA,
    Matrix.vecHead, Matrix.vecTail, Function.comp]

/-- C10: every joint of `forward_kinematics` rotates about z and every
translation offset has zero z-component, so each returned cumulative
transform maps the plane z = 0 to itself (a homogeneous point with zero third
coordinate keeps it) and the end-effector's z-coordinate is 0. -/
theorem forward_kinematics_planar (a b c d : ℝ) (rest : List ℝ)
    (L1 L2 L3 L4 : ℝ) (r : FKResult)
    (h : forward_kinematics (a :: b :: c :: d :: rest) L1 L2 L3 L4 = some r) :
    (∀ v : Fin 4 → ℝ, v 2 = 0 →
      (r.T01 *ᵥ v) 2 = 0 ∧ (r.T02 *ᵥ v) 2 = 0 ∧
      (r.T03 *ᵥ v) 2 = 0 ∧ (r.T04 *ᵥ v) 2 = 0) ∧
    r.e 2 = 0 := by
  rw [forward_kinematics_cons] at h
  cases h
  have h1 : T_loc1 a 2 = ![0, 0, 1, 0] :=
    rowz_getLocalFrameMatrix _ _ (rotZ_rowz a) rfl
  have h2 : T_loc2 b L1 2 = ![0, 0, 1, 0] :=
    rowz_getLocalFrameMatrix _ _ (rotZ_rowz b) rfl
  have h3 : T_loc3 c L2 2 = ![0, 0, 1, 0] :=
    rowz_getLocalFrameMatrix _ _ (rotZ_rowz c) rfl
  have h4 : T_loc4 d L3 2 = ![0, 0, 1, 0] :=
    rowz_getLocalFrameMatrix _ _ (rotZ_rowz d) rfl
  have p2 := rowz_mul h1 h2
  have p3 := rowz_mul p2 h3
  have p4 := rowz_mul p3 h4
  refine ⟨fun v hv => ⟨?_, ?_, ?_, ?_⟩, ?_⟩
  · rw [mulVec_z h1, hv]
  · rw [mulVec_z p2, hv]
  · rw [mulVec_z p3, hv]
  · rw [mulVec_z p4, hv]
  · show ((T_loc1 a * T_loc2 b L1 * T_loc3 c L2 * T_loc4 d L3) *ᵥ
      ![0, 0, 0, 1]) 2 = 0
    rw [mulVec_z p4]
    simp

/-- Witness for C10 on the all-zero angle vector with unit link lengths and
the in-plane homogeneous point (1, 1, 0, 1). -/
theorem forward_kinematics_planar_witness :
    forward_kinematics [0, 0, 0, 0] 1 1 1 1 = some fkZeroRes ∧
      (![1, 1, 0, 1] : Fin 4 → ℝ) 2 = 0 ∧
      (fkZeroRes.T04 *ᵥ ![1, 1, 0, 1]) 2 = 0 ∧ fkZeroRes.e 2 = 0 :=
  ⟨rfl, by simp,
   ((forward_kinematics_planar 0 0 0 0 [] 1 1 1 1 fkZeroRes rfl).1
     ![1, 1, 0, 1] (by simp)).2.2.2,
   (forward_kinematics_planar 0 0 0 0 [] 1 1 1 1 fkZeroRes rfl).2⟩
